import Mathlib

/-!
Shallow embedding of the Pokemon stock tracker core
(`PokemonTracker.py`, `BaseRetailer.py`).

Python dictionaries are modelled as association lists, floats as
rationals, and every source of randomness or external input
(`random.random`, `random.choice`, `random.uniform`, HTTP responses,
Discord channel availability) is passed in explicitly as a parameter,
so that every function is a pure, executable Lean definition.
-/

abbrev ProductKey := String
abbrev UserId := Nat
abbrev ChannelId := Nat

/-- A `(in_stock, price, url)` triple as stored in
`RetailerDatabase.stock_status`.  `price` and `url` are `Option` because
the Python code stores `None` there (price when out of stock, url in the
`check_stock` fallback). -/
structure StockState where
  in_stock : Bool
  price : Option ℚ
  url : Option String
deriving DecidableEq, Repr

/-- Association-list model of Python dictionary lookup (`d[k]` /
`d.get(k)`): the first binding of the key wins. -/
def lookupA {α β : Type} [DecidableEq α] : List (α × β) → α → Option β
  | [], _ => none
  | e :: rest, k => if e.1 = k then some e.2 else lookupA rest k

/-- Association-list model of Python dictionary assignment to an existing
key (`d[k] = v`): every binding of the key is replaced in place. -/
def setA {α β : Type} [DecidableEq α] : List (α × β) → α → β → List (α × β)
  | [], _, _ => []
  | e :: rest, k, v => if e.1 = k then (k, v) :: setA rest k v else e :: setA rest k v

/-- Python dictionary assignment `d[k] = v`: update in place when the key
exists, append a new binding otherwise. -/
def dictSet {α β : Type} [DecidableEq α] (m : List (α × β)) (k : α) (v : β) :
    List (α × β) :=
  if k ∈ m.map Prod.fst then setA m k v else m ++ [(k, v)]

/-! Basic association-list lemmas. -/

theorem lookupA_isSome_iff_mem {α β : Type} [DecidableEq α]
    (m : List (α × β)) (k : α) : (lookupA m k).isSome = true ↔ k ∈ m.map Prod.fst := by
  induction m with
  | nil => simp [lookupA]
  | cons e rest ih =>
    by_cases h : e.1 = k
    · simp [lookupA, h]
    · simp [lookupA, h, ih, Ne.symm h]

theorem lookupA_eq_none_of_not_mem {α β : Type} [DecidableEq α]
    {m : List (α × β)} {k : α} (h : k ∉ m.map Prod.fst) : lookupA m k = none := by
  cases hl : lookupA m k with
  | none => rfl
  | some v =>
    exact absurd ((lookupA_isSome_iff_mem m k).mp (by simp [hl])) h

theorem mem_of_lookupA_eq_some {α β : Type} [DecidableEq α]
    {m : List (α × β)} {k : α} {v : β} (h : lookupA m k = some v) :
    k ∈ m.map Prod.fst :=
  (lookupA_isSome_iff_mem m k).mp (by simp [h])

theorem lookupA_setA_self {α β : Type} [DecidableEq α]
    {m : List (α × β)} {k : α} (v : β) (h : k ∈ m.map Prod.fst) :
    lookupA (setA m k v) k = some v := by
  induction m with
  | nil => simp at h
  | cons e rest ih =>
    by_cases he : e.1 = k
    · simp [setA, he, lookupA]
    · simp only [List.map_cons, List.mem_cons] at h
      rcases h with h | h
      · exact absurd h.symm he
      · simp [setA, he, lookupA, Ne.symm he, ih h]

theorem lookupA_setA_ne {α β : Type} [DecidableEq α]
    (m : List (α × β)) (k k' : α) (v : β) (h : k' ≠ k) :
    lookupA (setA m k v) k' = lookupA m k' := by
  induction m with
  | nil => simp [setA]
  | cons e rest ih =>
    simp only [setA]
    by_cases he : e.1 = k
    · have hk : ¬(k = k') := fun hh => h hh.symm
      simp [he, lookupA, hk, ih]
    · simp only [he, if_false, lookupA]
      by_cases he' : e.1 = k'
      · simp [he']
      · simp [he', ih]

theorem lookupA_append_of_none {α β : Type} [DecidableEq α]
    {m₁ : List (α × β)} (m₂ : List (α × β)) {k : α}
    (h : lookupA m₁ k = none) : lookupA (m₁ ++ m₂) k = lookupA m₂ k := by
  induction m₁ with
  | nil => simp
  | cons e rest ih =>
    by_cases he : e.1 = k
    · simp [lookupA, he] at h
    · simp only [List.cons_append, lookupA, he, if_false] at h ⊢
      exact ih h

theorem mem_keys_dictSet_self {α β : Type} [DecidableEq α]
    (m : List (α × β)) (k : α) (v : β) : lookupA (dictSet m k v) k = some v := by
  unfold dictSet
  by_cases h : k ∈ m.map Prod.fst
  · simp only [h, if_true]
    exact lookupA_setA_self v h
  · simp only [h, if_false]
    rw [lookupA_append_of_none _ (lookupA_eq_none_of_not_mem h)]
    simp [lookupA]

/-! The simulated retailer database (`RetailerDatabase`). -/

/-- Url built in `_initialize_sample_stock`:
`https://example.com/{retailer.lower()}/{product.lower().replace(' ', '-')}`. -/
def sample_url (retailer product : String) : String :=
  "https://example.com/" ++ retailer.toLower ++ "/" ++
    ((product.toLower).replace " " "-")

/-- Model of `RetailerDatabase._initialize_sample_stock`.  The catalog is
`products_by_retailer` as a list; `randStock` and `randPrice` stand for
the `random.random() > 0.7` draw and the rounded `random.uniform(20, 120)`
draw for each product key. -/
def init_sample_stock : List (String × List String) → (ProductKey → Bool) →
    (ProductKey → ℚ) → List (ProductKey × StockState)
  | [], _, _ => []
  | (retailer, products) :: rest, randStock, randPrice =>
    products.map (fun product =>
      let key := retailer ++ ":" ++ product
      let inS := randStock key
      (key, ⟨inS, if inS then some (randPrice key) else none,
             some (sample_url retailer product)⟩)) ++
      init_sample_stock rest randStock randPrice

/-- Model of `RetailerDatabase.check_stock`:
`self.stock_status.get(product, (False, None, None))`. -/
def check_stock (db : List (ProductKey × StockState)) (p : ProductKey) : StockState :=
  (lookupA db p).getD ⟨false, none, none⟩

/-- Model of `RetailerDatabase.simulate_stock_change`.  `i` stands for the
`random.choice` draw (reduced modulo the number of products) and `q` for
the rounded `random.uniform(20, 120)` price draw.  The returned option
carries the chosen product together with its previous and new states
(the Python code returns `(product, in_stock, price, url)`, i.e. the new
state; the previous state is exposed here as well because the change
events of the spec are diffs of the two). -/
def simulate_stock_change (db : List (ProductKey × StockState)) (i : Nat) (q : ℚ) :
    List (ProductKey × StockState) × Option (ProductKey × StockState × StockState) :=
  if h : db = [] then (db, none)
  else
    let product := (db.get ⟨i % db.length, Nat.mod_lt _ (List.length_pos.mpr h)⟩).1
    match lookupA db product with
    | none => (db, none)
    | some old =>
      let inS := !old.in_stock
      let st : StockState := ⟨inS, if inS then some q else none, old.url⟩
      (setA db product st, some (product, old, st))

/-- Model of `RetailerDatabase.add_to_tracking`: ensure the user has a
(tracking) list, then append the product unless already present; returns
the updated map together with the Python return value (`True` when the
product was newly added, `False` when it was already tracked). -/
def add_to_tracking (tr : List (UserId × List ProductKey)) (u : UserId)
    (k : ProductKey) : List (UserId × List ProductKey) × Bool :=
  let tr1 := if u ∈ tr.map Prod.fst then tr else tr ++ [(u, [])]
  let tl := (lookupA tr1 u).getD []
  if k ∈ tl then (tr1, false)
  else (dictSet tr1 u (tl ++ [k]), true)

/-- Model of `RetailerDatabase.get_tracking_list`:
`self.user_tracking.get(user_id, [])`. -/
def get_tracking_list (tr : List (UserId × List ProductKey)) (u : UserId) :
    List ProductKey :=
  (lookupA tr u).getD []

/-- Model of `RetailerDatabase.get_buylist`:
`self.user_buylists.get(user_id, {})`. -/
def get_buylist (bl : List (UserId × List (ProductKey × ℚ))) (u : UserId) :
    List (ProductKey × ℚ) :=
  (lookupA bl u).getD []

/-- Model of `RetailerDatabase.get_notification_channel`:
`self.user_channels.get(user_id)`. -/
def get_notification_channel (ch : List (UserId × ChannelId)) (u : UserId) :
    Option ChannelId :=
  lookupA ch u

/-- The mutable state of `RetailerDatabase` that the polling task and the
tracking commands touch. -/
structure TrackerDB where
  user_tracking : List (UserId × List ProductKey)
  user_buylists : List (UserId × List (ProductKey × ℚ))
  user_channels : List (UserId × ChannelId)
  stock_status : List (ProductKey × StockState)
deriving DecidableEq

/-- A detected stock transition: the product together with its previous
and current `StockState` (the spec's `StockChangeEvent`). -/
structure StockChangeEvent where
  product : ProductKey
  previous : StockState
  current : StockState
deriving DecidableEq

/-- Outbound messages produced inside `check_stock_task`: the stock-alert
embed and the auto-purchase embed, with the recipient user and channel. -/
inductive Notification where
  | stockAlert (user : UserId) (channel : ChannelId) (product : ProductKey)
      (st : StockState)
  | purchaseSuccess (user : UserId) (channel : ChannelId) (product : ProductKey)
      (price : ℚ)
deriving DecidableEq

def notifUser : Notification → UserId
  | .stockAlert u _ _ _ => u
  | .purchaseSuccess u _ _ _ => u

def notifProduct : Notification → ProductKey
  | .stockAlert _ _ k _ => k
  | .purchaseSuccess _ _ k _ => k

def isPurchase : Notification → Bool
  | .stockAlert _ _ _ _ => false
  | .purchaseSuccess _ _ _ _ => true

def isPurchaseFor (u : UserId) (k : ProductKey) (n : Notification) : Bool :=
  isPurchase n && decide (notifUser n = u) && decide (notifProduct n = k)

/-- Python truthiness of the `price` variable in
`check_stock_task` (`None` and `0.0` are falsy). -/
def priceTruthy : Option ℚ → Bool
  | none => false
  | some p => decide (p ≠ 0)

/-- The buy condition of `check_stock_task`, line for line:
`in_stock and product in buylist and price and price <= buylist[product]`. -/
def qualifies (st : StockState) (bl : List (ProductKey × ℚ)) (k : ProductKey) : Bool :=
  st.in_stock && (lookupA bl k).isSome && priceTruthy st.price &&
    match st.price, lookupA bl k with
    | some p, some t => decide (p ≤ t)
    | _, _ => false

/-- The `channel_id = get_notification_channel(...); channel =
bot.get_channel(channel_id); if channel: await channel.send(...)`
pattern of `check_stock_task`.  `channelOk` stands for
`bot.get_channel` returning a live channel. -/
def channel_send (chans : List (UserId × ChannelId)) (channelOk : ChannelId → Bool)
    (uid : UserId) (mk : ChannelId → Notification) : List Notification :=
  match get_notification_channel chans uid with
  | some c => if channelOk c then [mk c] else []
  | none => []

/-- The body of the `for user_id, tracking_list in user_tracking.items()`
loop of `check_stock_task` for one user: a stock alert if the user tracks
the product, followed by the auto-purchase message when the buy condition
holds. -/
def user_notifications (db : TrackerDB) (channelOk : ChannelId → Bool)
    (product : ProductKey) (st : StockState) (uid : UserId)
    (tl : List ProductKey) : List Notification :=
  if product ∈ tl then
    channel_send db.user_channels channelOk uid
      (fun c => Notification.stockAlert uid c product st) ++
    (if qualifies st (get_buylist db.user_buylists uid) product then
      channel_send db.user_channels channelOk uid
        (fun c => Notification.purchaseSuccess uid c product (st.price.getD 0))
    else [])
  else []

/-- The whole user loop of `check_stock_task`. -/
def tick_notifications (db : TrackerDB) (channelOk : ChannelId → Bool)
    (product : ProductKey) (st : StockState) :
    List (UserId × List ProductKey) → List Notification
  | [] => []
  | (uid, tl) :: rest =>
    user_notifications db channelOk product st uid tl ++
      tick_notifications db channelOk product st rest

/-- Model of one tick of `PokemonTracker.check_stock_task`.  `doChange`
stands for the `random.random() < 0.2` draw, `i` and `q` for the draws
inside `simulate_stock_change`, and `channelOk` for `bot.get_channel`
liveness.  The tick returns the updated database, the detected stock
transition if any, and the messages sent. -/
def check_stock_task (db : TrackerDB) (doChange : Bool) (i : Nat) (q : ℚ)
    (channelOk : ChannelId → Bool) :
    TrackerDB × Option StockChangeEvent × List Notification :=
  if doChange then
    match simulate_stock_change db.stock_status i q with
    | (ss', some (product, old, st)) =>
      ({ db with stock_status := ss' },
       some ⟨product, old, st⟩,
       tick_notifications db channelOk product st db.user_tracking)
    | (ss', none) => ({ db with stock_status := ss' }, none, [])
  else (db, none, [])

/-- Reply of the `/track add` command. -/
inductive TrackAddReply where
  | added (st : StockState)
  | alreadyTracking
deriving DecidableEq

/-- Model of `PokemonTracker.track_add`: build the `retailer:product` key,
add it to the tracking list, and either report the current stock state or
reply that the product is already tracked. -/
def track_add (db : TrackerDB) (u : UserId) (retailer product : String) :
    TrackerDB × TrackAddReply :=
  let key := retailer ++ ":" ++ product
  let r := add_to_tracking db.user_tracking u key
  let db' := { db with user_tracking := r.1 }
  if r.2 then (db', TrackAddReply.added (check_stock db.stock_status key))
  else (db', TrackAddReply.alreadyTracking)

/-! The fetch executor (`BaseRetailer._make_request`, GET path). -/

/-- What one attempt of `_make_request` observes: a classified HTTP status
with a body, or one of the exception classes caught by the code. -/
inductive HttpResponse where
  | status (code : Nat) (body : String)
  | clientError
  | timeoutError
  | otherError
deriving DecidableEq

/-- Execution trace of `_make_request`: the Python return value, the
number of request attempts made, the backoff sleeps performed between
attempts (the fixed `request_delay` politeness sleep that follows every
attempt is a constant on top of each entry and is not recorded), the log
lines, and whether the budget was exhausted (the code fell out of the
retry loop). -/
structure RequestTrace where
  result : Option String
  attempts : Nat
  waits : List ℚ
  logs : List String
  exhausted : Bool
deriving DecidableEq

/-- The retry loop of `_make_request` (GET path), by remaining budget.
`resp` gives the outcome of each attempt, `j429` the `random.uniform(0, 1)`
jitter drawn on a 429, `j5xx` the `random.uniform(1, 3)` jitter drawn on a
server error, and `a` is the current attempt index. -/
def make_request_from (resp : Nat → HttpResponse) (j429 j5xx : Nat → ℚ)
    (delay : ℚ) : Nat → Nat → RequestTrace
  | 0, _ => ⟨none, 0, [], ["All attempts to request url failed"], true⟩
  | fuel + 1, a =>
    match resp a with
    | .status code body =>
      if code = 200 then ⟨some body, 1, [], [], false⟩
      else if code = 404 then ⟨none, 1, [], ["Resource not found"], false⟩
      else if code = 429 then
        let w := delay * 2 ^ a + j429 a
        let t := make_request_from resp j429 j5xx delay fuel (a + 1)
        ⟨t.result, t.attempts + 1, w :: t.waits, "Rate limited, retrying" :: t.logs,
         t.exhausted⟩
      else if 500 ≤ code then
        let w := delay * 2 ^ a + j5xx a
        let t := make_request_from resp j429 j5xx delay fuel (a + 1)
        ⟨t.result, t.attempts + 1, w :: t.waits, "Server error, retrying" :: t.logs,
         t.exhausted⟩
      else ⟨none, 1, [], ["GET request failed with status"], false⟩
    | .clientError =>
      let t := make_request_from resp j429 j5xx delay fuel (a + 1)
      ⟨t.result, t.attempts + 1, delay :: t.waits,
       "Client error during request" :: t.logs, t.exhausted⟩
    | .timeoutError =>
      let t := make_request_from resp j429 j5xx delay fuel (a + 1)
      ⟨t.result, t.attempts + 1, delay :: t.waits,
       "Request timed out" :: t.logs, t.exhausted⟩
    | .otherError =>
      let t := make_request_from resp j429 j5xx delay fuel (a + 1)
      ⟨t.result, t.attempts + 1, delay :: t.waits,
       "An unexpected error occurred" :: t.logs, t.exhausted⟩

/-- Model of `BaseRetailer._make_request` (GET): run the retry loop with
the configured budget, starting at attempt 0. -/
def make_request (resp : Nat → HttpResponse) (j429 j5xx : Nat → ℚ)
    (retries : Nat) (delay : ℚ) : RequestTrace :=
  make_request_from resp j429 j5xx delay retries 0

/-! The notification dispatcher (`RetailerCog._process_notifications`). -/

/-- Outcome of `user.send(message)` for one delivery. -/
inductive SendOutcome where
  | delivered
  | serverErr
  | forbidden
  | otherErr
deriving DecidableEq

/-- One queued `(user_id, message)` pair together with what the Discord
client would do with it: whether `bot.get_user` finds the recipient and
how `user.send` turns out. -/
structure DeliveryInput where
  user_id : UserId
  message : String
  userFound : Bool
  outcome : SendOutcome
deriving DecidableEq

/-- One iteration of the `_process_notifications` loop body for a dequeued
message: the number of `user.send` attempts made and the log lines.  Every
branch falls through to `task_done` — the message is dropped whatever
happens. -/
def process_notification (inp : DeliveryInput) : Nat × List String :=
  if inp.userFound then
    match inp.outcome with
    | .delivered => (1, ["Notification sent to user"])
    | .serverErr => (1, ["Discord server error sending notification"])
    | .forbidden => (1, ["Could not send notification (forbidden)"])
    | .otherErr => (1, ["Error sending notification"])
  else (0, ["User not found, cannot send notification"])

/-- The dispatcher loop over a queue of messages: returns how many
messages were fully processed (`task_done` calls), how many `user.send`
attempts were made in total, and the log. -/
def process_notifications : List DeliveryInput → Nat × Nat × List String
  | [] => (0, 0, [])
  | inp :: rest =>
    let r := process_notification inp
    let t := process_notifications rest
    (t.1 + 1, r.1 + t.2.1, r.2 ++ t.2.2)

/-! The purchase flow (`RetailerCog.buy_command`). -/

/-- Retailer-adapter calls issued by `buy_command`, in order. -/
inductive BuyStep where
  | stockCheck
  | cartAdd
  | checkoutStep
deriving DecidableEq

/-- Messages `buy_command` sends back, reporting progress and outcome. -/
inductive BuyMessage where
  | retailerNotFound
  | outOfStock
  | attempting
  | addFailed
  | checkoutFailed
  | success
deriving DecidableEq

/-- Model of `RetailerCog.buy_command`: `rf` is whether `get_retailer`
finds the retailer, `inS` the result of `check_stock`, `addOk` the result
of `add_to_cart`, `payOk` the result of `checkout`.  Returns the adapter
calls made and the messages sent, in order. -/
def buy_command (rf inS addOk payOk : Bool) : List BuyStep × List BuyMessage :=
  if rf = false then ([], [BuyMessage.retailerNotFound])
  else if inS = false then ([BuyStep.stockCheck], [BuyMessage.outOfStock])
  else if addOk = false then
    ([BuyStep.stockCheck, BuyStep.cartAdd],
     [BuyMessage.attempting, BuyMessage.addFailed])
  else if payOk then
    ([BuyStep.stockCheck, BuyStep.cartAdd, BuyStep.checkoutStep],
     [BuyMessage.attempting, BuyMessage.success])
  else
    ([BuyStep.stockCheck, BuyStep.cartAdd, BuyStep.checkoutStep],
     [BuyMessage.attempting, BuyMessage.checkoutFailed])

/-! The price parsing utility (`BaseRetailer.extract_price`). -/

/-- Python `str.replace(c, "")` for a single character: every occurrence
is removed. -/
def removeAll (c : Char) (s : List Char) : List Char :=
  s.filter (fun x => x ≠ c)

/-- Python `str.strip()`: drop leading and trailing whitespace. -/
def strip (s : List Char) : List Char :=
  ((s.dropWhile Char.isWhitespace).reverse.dropWhile Char.isWhitespace).reverse

/-- The cleaning pipeline of `extract_price`:
`text.replace("$", "").replace("€", "").replace("£", "").replace(",", "").strip()`. -/
def clean_text (s : List Char) : List Char :=
  strip (removeAll ',' (removeAll '£' (removeAll '€' (removeAll '$' s))))

/-- Model of `extract_price`.  The `float(...)` builtin is external to the
repository and is passed in as `parsePrice`; its `ValueError` on a
non-numeric string is the `none` result, which the `try/except` of the
source turns into returning `None`. -/
def extract_price (parsePrice : List Char → Option ℚ) :
    Option (List Char) → Option ℚ
  | none => none
  | some s => parsePrice (clean_text s)

/-! Helper lemmas about the simulated stock change and the polling tick. -/

/-- Either the database is empty and nothing happens, or some product is
flipped. -/
theorem simulate_stock_change_cases (db : List (ProductKey × StockState))
    (i : Nat) (q : ℚ) :
    simulate_stock_change db i q = (db, none) ∨
    ∃ k old, lookupA db k = some old ∧
      simulate_stock_change db i q =
        (setA db k ⟨!old.in_stock, if !old.in_stock then some q else none, old.url⟩,
         some (k, old,
           ⟨!old.in_stock, if !old.in_stock then some q else none, old.url⟩)) := by
  unfold simulate_stock_change
  by_cases h : db = []
  · rw [dif_pos h]
    exact Or.inl rfl
  · rw [dif_neg h]
    dsimp only
    cases hl : lookupA db
        (db.get ⟨i % db.length, Nat.mod_lt _ (List.length_pos.mpr h)⟩).1 with
    | none => exact Or.inl rfl
    | some old =>
      right
      exact ⟨_, old, hl, rfl⟩

/-- A tick that detects no transition leaves the database untouched and
sends nothing. -/
theorem check_stock_task_none_eq (db : TrackerDB) (doChange : Bool) (i : Nat)
    (q : ℚ) (channelOk : ChannelId → Bool)
    (h : (check_stock_task db doChange i q channelOk).2.1 = none) :
    (check_stock_task db doChange i q channelOk).1 = db ∧
    (check_stock_task db doChange i q channelOk).2.2 = [] := by
  cases doChange with
  | false => simp [check_stock_task]
  | true =>
    rcases simulate_stock_change_cases db.stock_status i q with hc | ⟨k, old, hl, hc⟩
    · constructor <;> simp [check_stock_task, hc]
    · simp [check_stock_task, hc] at h

/-- A tick that detects a transition updates exactly the flipped product
and reports the flip. -/
theorem check_stock_task_some_eq (db : TrackerDB) (doChange : Bool) (i : Nat)
    (q : ℚ) (channelOk : ChannelId → Bool) (ev : StockChangeEvent)
    (h : (check_stock_task db doChange i q channelOk).2.1 = some ev) :
    lookupA db.stock_status ev.product = some ev.previous ∧
    ev.current = ⟨!ev.previous.in_stock,
      if !ev.previous.in_stock then some q else none, ev.previous.url⟩ ∧
    (check_stock_task db doChange i q channelOk).1 =
      { db with stock_status := setA db.stock_status ev.product ev.current } ∧
    (check_stock_task db doChange i q channelOk).2.2 =
      tick_notifications db channelOk ev.product ev.current db.user_tracking := by
  cases doChange with
  | false => simp [check_stock_task] at h
  | true =>
    rcases simulate_stock_change_cases db.stock_status i q with hc | ⟨k, old, hl, hc⟩
    · simp [check_stock_task, hc] at h
    · simp only [check_stock_task, if_true, hc] at h ⊢
      cases h
      exact ⟨hl, rfl, rfl, rfl⟩

/-! Helper lemmas about the notification fan-out. -/

theorem mem_channel_send {chans : List (UserId × ChannelId)}
    {channelOk : ChannelId → Bool} {uid : UserId} {mk : ChannelId → Notification}
    {n : Notification} (h : n ∈ channel_send chans channelOk uid mk) :
    ∃ c, get_notification_channel chans uid = some c ∧ channelOk c = true ∧
      n = mk c := by
  unfold channel_send at h
  cases hc : get_notification_channel chans uid with
  | none => simp [hc] at h
  | some c =>
    rw [hc] at h
    by_cases hok : channelOk c = true
    · simp only [hok, if_true, List.mem_singleton] at h
      exact ⟨c, rfl, hok, h⟩
    · simp [hok] at h

theorem channel_send_length (chans : List (UserId × ChannelId))
    (channelOk : ChannelId → Bool) (uid : UserId) (mk : ChannelId → Notification) :
    (channel_send chans channelOk uid mk).length ≤ 1 := by
  unfold channel_send
  cases get_notification_channel chans uid with
  | none => simp
  | some c => by_cases h : channelOk c = true <;> simp [h]

theorem qualifies_in_stock {st : StockState} {bl : List (ProductKey × ℚ)}
    {k : ProductKey} (h : qualifies st bl k = true) : st.in_stock = true := by
  unfold qualifies at h
  simp only [Bool.and_eq_true] at h
  exact h.1.1.1

theorem mem_user_notifications {db : TrackerDB} {channelOk : ChannelId → Bool}
    {product : ProductKey} {st : StockState} {uid : UserId}
    {tl : List ProductKey} {n : Notification}
    (h : n ∈ user_notifications db channelOk product st uid tl) :
    notifUser n = uid ∧ notifProduct n = product ∧
      (isPurchase n = true →
        qualifies st (get_buylist db.user_buylists uid) product = true) := by
  unfold user_notifications at h
  by_cases hm : product ∈ tl
  · rw [if_pos hm] at h
    rcases List.mem_append.mp h with h | h
    · obtain ⟨c, _, _, hn⟩ := mem_channel_send h
      subst hn
      exact ⟨rfl, rfl, by intro hp; cases hp⟩
    · by_cases hq : qualifies st (get_buylist db.user_buylists uid) product = true
      · rw [if_pos hq] at h
        obtain ⟨c, _, _, hn⟩ := mem_channel_send h
        subst hn
        exact ⟨rfl, rfl, fun _ => hq⟩
      · rw [if_neg hq] at h
        simp at h
  · rw [if_neg hm] at h
    simp at h

theorem user_notifications_filter_le (db : TrackerDB) (channelOk : ChannelId → Bool)
    (product : ProductKey) (st : StockState) (uid : UserId) (tl : List ProductKey)
    (u : UserId) (k : ProductKey) :
    ((user_notifications db channelOk product st uid tl).filter
      (isPurchaseFor u k)).length ≤ 1 := by
  unfold user_notifications
  by_cases hm : product ∈ tl
  · rw [if_pos hm, List.filter_append, List.length_append]
    have h1 : ((channel_send db.user_channels channelOk uid
        (fun c => Notification.stockAlert uid c product st)).filter
          (isPurchaseFor u k)).length = 0 := by
      rw [List.length_eq_zero, List.filter_eq_nil_iff]
      intro n hn
      obtain ⟨c, _, _, hn'⟩ := mem_channel_send hn
      subst hn'
      simp [isPurchaseFor, isPurchase]
    rw [h1, Nat.zero_add]
    by_cases hq : qualifies st (get_buylist db.user_buylists uid) product = true
    · rw [if_pos hq]
      exact le_trans (List.length_filter_le _ _) (channel_send_length _ _ _ _)
    · rw [if_neg hq]
      simp
  · rw [if_neg hm]
    simp

theorem user_notifications_filter_ne (db : TrackerDB) (channelOk : ChannelId → Bool)
    (product : ProductKey) (st : StockState) (uid : UserId) (tl : List ProductKey)
    {u : UserId} (k : ProductKey) (h : u ≠ uid) :
    (user_notifications db channelOk product st uid tl).filter
      (isPurchaseFor u k) = [] := by
  rw [List.filter_eq_nil_iff]
  intro n hn
  have hu := (mem_user_notifications hn).1
  simp [isPurchaseFor, hu, Ne.symm h]

theorem tick_notifications_filter_not_mem (db : TrackerDB)
    (channelOk : ChannelId → Bool) (product : ProductKey) (st : StockState)
    (u : UserId) (k : ProductKey) :
    ∀ l : List (UserId × List ProductKey), u ∉ l.map Prod.fst →
      (tick_notifications db channelOk product st l).filter (isPurchaseFor u k) = []
  | [], _ => rfl
  | (uid, tl) :: rest, h => by
    simp only [List.map_cons, List.mem_cons, not_or] at h
    rw [tick_notifications, List.filter_append,
      user_notifications_filter_ne db channelOk product st uid tl k h.1,
      tick_notifications_filter_not_mem db channelOk product st u k rest h.2]
    rfl

theorem tick_notifications_filter_le (db : TrackerDB)
    (channelOk : ChannelId → Bool) (product : ProductKey) (st : StockState)
    (u : UserId) (k : ProductKey) :
    ∀ l : List (UserId × List ProductKey), (l.map Prod.fst).Nodup →
      ((tick_notifications db channelOk product st l).filter
        (isPurchaseFor u k)).length ≤ 1
  | [], _ => by simp [tick_notifications]
  | (uid, tl) :: rest, h => by
    simp only [List.map_cons, List.nodup_cons] at h
    rw [tick_notifications, List.filter_append, List.length_append]
    by_cases hu : u = uid
    · subst hu
      rw [tick_notifications_filter_not_mem db channelOk product st u k rest h.1]
      simpa using user_notifications_filter_le db channelOk product st u tl u k
    · rw [user_notifications_filter_ne db channelOk product st uid tl k hu]
      simpa using tick_notifications_filter_le db channelOk product st u k rest h.2

theorem mem_tick_notifications {db : TrackerDB} {channelOk : ChannelId → Bool}
    {product : ProductKey} {st : StockState} :
    ∀ {l : List (UserId × List ProductKey)} {n : Notification},
      n ∈ tick_notifications db channelOk product st l →
      notifProduct n = product ∧
        (isPurchase n = true →
          qualifies st (get_buylist db.user_buylists (notifUser n)) product = true)
  | [], n, h => by simp [tick_notifications] at h
  | (uid, tl) :: rest, n, h => by
    rw [tick_notifications] at h
    rcases List.mem_append.mp h with h | h
    · obtain ⟨hu, hp, hq⟩ := mem_user_notifications h
      exact ⟨hp, by rw [hu]; exact hq⟩
    · exact mem_tick_notifications h

/-- A small concrete tracker state used to evaluate the theorems on a
running example: one user tracking one product, with a buy threshold and
a notification channel set. -/
def demoDB : TrackerDB :=
  { user_tracking := [(1, ["Walmart:X"])],
    user_buylists := [(1, [("Walmart:X", 50)])],
    user_channels := [(1, 9)],
    stock_status := [("Walmart:X", ⟨false, none, some "url"⟩)] }

/-- C1: for every poll of a tracked product, a StockChangeEvent (and the
resulting user notifications) is produced if and only if the new
StockState differs by value from the previous one (here every emitted
event flips `inStock`); a poll that returns an unchanged StockState (no
detected transition) produces no event, no notification, and no purchase
attempt, and leaves the database untouched. -/
theorem c1_event_iff_state_change (db : TrackerDB) (doChange : Bool) (i : Nat)
    (q : ℚ) (channelOk : ChannelId → Bool) :
    (∀ ev, (check_stock_task db doChange i q channelOk).2.1 = some ev →
      ev.current ≠ ev.previous ∧ ev.current.in_stock = !ev.previous.in_stock) ∧
    ((check_stock_task db doChange i q channelOk).2.1 = none →
      (check_stock_task db doChange i q channelOk).1 = db ∧
      (check_stock_task db doChange i q channelOk).2.2 = []) ∧
    ((check_stock_task db doChange i q channelOk).2.2 ≠ [] →
      ((check_stock_task db doChange i q channelOk).2.1).isSome = true) := by
  refine ⟨?_, check_stock_task_none_eq db doChange i q channelOk, ?_⟩
  · intro ev hev
    obtain ⟨hl, hcur, _, _⟩ :=
      check_stock_task_some_eq db doChange i q channelOk ev hev
    constructor
    · intro heq
      rw [heq] at hcur
      have hb : ev.previous.in_stock = !ev.previous.in_stock :=
        congrArg StockState.in_stock hcur
      simp at hb
    · rw [hcur]
  · intro hne
    cases hev : (check_stock_task db doChange i q channelOk).2.1 with
    | some ev => rfl
    | none =>
      exact absurd (check_stock_task_none_eq db doChange i q channelOk hev).2 hne

theorem c1_witness :
    ((⟨true, some 50, some "url"⟩ : StockState) ≠ ⟨false, none, some "url"⟩) ∧
    (check_stock_task demoDB false 0 50 (fun _ => true)).1 = demoDB ∧
    ((check_stock_task demoDB true 0 50 (fun _ => true)).2.1).isSome = true := by
  refine ⟨?_, ?_, ?_⟩
  · exact ((c1_event_iff_state_change demoDB true 0 50 (fun _ => true)).1
      ⟨"Walmart:X", ⟨false, none, some "url"⟩, ⟨true, some 50, some "url"⟩⟩
      (by decide)).1
  · exact ((c1_event_iff_state_change demoDB false 0 50 (fun _ => true)).2.1
      (by decide)).1
  · exact (c1_event_iff_state_change demoDB true 0 50 (fun _ => true)).2.2
      (by decide)

/-- C2: within one tick a triggering event causes at most one purchase
attempt per `(user, product)` pair (the user dictionary has unique keys),
and every purchase attempt belongs to an event whose previous state was
out of stock and whose current state is in stock — a fresh crossing.
Repeated events re-confirming an in-stock state cannot exist, because
every event flips `inStock`; a second attempt therefore always sits at a
new out-to-in crossing. -/
theorem c2_at_most_one_purchase_per_crossing (db : TrackerDB) (doChange : Bool)
    (i : Nat) (q : ℚ) (channelOk : ChannelId → Bool) (u : UserId) (k : ProductKey)
    (husers : (db.user_tracking.map Prod.fst).Nodup) :
    (((check_stock_task db doChange i q channelOk).2.2).filter
      (isPurchaseFor u k)).length ≤ 1 ∧
    (∀ n, n ∈ (check_stock_task db doChange i q channelOk).2.2 →
      isPurchaseFor u k n = true →
      ∃ ev, (check_stock_task db doChange i q channelOk).2.1 = some ev ∧
        ev.product = k ∧ ev.previous.in_stock = false ∧
        ev.current.in_stock = true) := by
  cases hev : (check_stock_task db doChange i q channelOk).2.1 with
  | none =>
    have h2 := (check_stock_task_none_eq db doChange i q channelOk hev).2
    rw [h2]
    exact ⟨by simp, by intro n hn; simp at hn⟩
  | some ev =>
    obtain ⟨hl, hcur, hdb, hnotif⟩ :=
      check_stock_task_some_eq db doChange i q channelOk ev hev
    rw [hnotif]
    constructor
    · exact tick_notifications_filter_le db channelOk ev.product ev.current u k
        db.user_tracking husers
    · intro n hn hp
      obtain ⟨hprod, hq⟩ := mem_tick_notifications hn
      have hp' : isPurchase n = true := by
        unfold isPurchaseFor at hp
        simp only [Bool.and_eq_true] at hp
        exact hp.1.1
      have hkprod : notifProduct n = k := by
        unfold isPurchaseFor at hp
        simp only [Bool.and_eq_true, decide_eq_true_eq] at hp
        exact hp.2
      have hstock : ev.current.in_stock = true := qualifies_in_stock (hq hp')
      refine ⟨ev, rfl, hprod.symm.trans hkprod, ?_, hstock⟩
      have hflip : ev.current.in_stock = !ev.previous.in_stock := by rw [hcur]
      rw [hstock] at hflip
      cases hb : ev.previous.in_stock
      · rfl
      · rw [hb] at hflip
        simp at hflip

theorem c2_witness :
    (((check_stock_task demoDB true 0 50 (fun _ => true)).2.2).filter
      (isPurchaseFor 1 "Walmart:X")).length ≤ 1 ∧
    (⟨"Walmart:X", ⟨false, none, some "url"⟩,
        ⟨true, some 50, some "url"⟩⟩ : StockChangeEvent).previous.in_stock = false := by
  constructor
  · exact (c2_at_most_one_purchase_per_crossing demoDB true 0 50 (fun _ => true)
      1 "Walmart:X" (by decide)).1
  · obtain ⟨ev, hev, _, hprev, _⟩ :=
      (c2_at_most_one_purchase_per_crossing demoDB true 0 50 (fun _ => true)
        1 "Walmart:X" (by decide)).2
      (Notification.purchaseSuccess 1 9 "Walmart:X" 50) (by decide) (by decide)
    have : ev = ⟨"Walmart:X", ⟨false, none, some "url"⟩,
        ⟨true, some 50, some "url"⟩⟩ := by
      have h2 : (check_stock_task demoDB true 0 50 (fun _ => true)).2.1 =
          some ⟨"Walmart:X", ⟨false, none, some "url"⟩,
            ⟨true, some 50, some "url"⟩⟩ := by decide
      rw [hev] at h2
      exact (Option.some.injEq _ _).mp h2
    rw [← this]
    exact hprev

/-- C3: an event qualifies for a user whose buylist contains the product
exactly when the current state is in stock with a price at or below the
threshold (events produced by the poller always carry a positive price
when in stock, which is what makes the Python truthiness test on `price`
agree with the spec); and the purchase flow calls `add_to_cart` and then
`checkout` only if the former succeeded, with no retry at either failure
point, and reports the outcome — success or failure — in a message. -/
theorem c3_qualify_and_purchase_flow :
    (∀ (st : StockState) (bl : List (ProductKey × ℚ)) (k : ProductKey) (t : ℚ),
      lookupA bl k = some t →
      (st.in_stock = true → ∃ p, st.price = some p ∧ 0 < p) →
      (qualifies st bl k = true ↔
        st.in_stock = true ∧ ∃ p, st.price = some p ∧ p ≤ t)) ∧
    (∀ rf inS addOk payOk : Bool,
      (BuyStep.checkoutStep ∈ (buy_command rf inS addOk payOk).1 ↔
        rf = true ∧ inS = true ∧ addOk = true) ∧
      (buy_command rf inS addOk payOk).1.count BuyStep.cartAdd ≤ 1 ∧
      (buy_command rf inS addOk payOk).1.count BuyStep.checkoutStep ≤ 1 ∧
      (rf = true → inS = true → addOk = true → payOk = true →
        BuyMessage.success ∈ (buy_command rf inS addOk payOk).2) ∧
      (rf = true → inS = true → addOk = true → payOk = false →
        BuyMessage.checkoutFailed ∈ (buy_command rf inS addOk payOk).2) ∧
      (rf = true → inS = true → addOk = false →
        BuyMessage.addFailed ∈ (buy_command rf inS addOk payOk).2)) := by
  constructor
  · intro st bl k t hbl hpr
    cases hs : st.in_stock with
    | false => simp [qualifies, hs]
    | true =>
      obtain ⟨p, hp, hp0⟩ := hpr hs
      simp [qualifies, hs, hbl, hp, priceTruthy, hp0.ne']
  · intro rf inS addOk payOk
    cases rf <;> cases inS <;> cases addOk <;> cases payOk <;>
      simp [buy_command]

theorem c3_witness :
    qualifies ⟨true, some 50, some "url"⟩ [("Walmart:X", 50)] "Walmart:X" = true ∧
    BuyMessage.success ∈ (buy_command true true true true).2 := by
  constructor
  · exact (c3_qualify_and_purchase_flow.1 ⟨true, some 50, some "url"⟩
      [("Walmart:X", 50)] "Walmart:X" 50 (by decide)
      (fun _ => ⟨50, rfl, by norm_num⟩)).mpr ⟨rfl, 50, rfl, le_refl 50⟩
  · exact (c3_qualify_and_purchase_flow.2 true true true true).2.2.2.1
      rfl rfl rfl rfl

/-! Helper lemmas for the fetch executor. -/

theorem one_le_two_pow_rat (m : Nat) : (1 : ℚ) ≤ 2 ^ m := by
  induction m with
  | zero => norm_num
  | succ n ih => rw [pow_succ]; nlinarith

/-- When every attempt is answered 429, the retry loop runs through its
whole budget, sleeping `delay * 2 ^ attempt + jitter` each time, and
returns `None` with the exhaustion log line. -/
theorem make_request_from_all429 (resp : Nat → HttpResponse) (body : Nat → String)
    (j429 j5xx : Nat → ℚ) (delay : ℚ)
    (hresp : ∀ a, resp a = HttpResponse.status 429 (body a)) :
    ∀ fuel a, make_request_from resp j429 j5xx delay fuel a =
      ⟨none, fuel,
       (List.range fuel).map (fun m => delay * 2 ^ (a + m) + j429 (a + m)),
       List.replicate fuel "Rate limited, retrying" ++
         ["All attempts to request url failed"], true⟩
  | 0, a => by simp [make_request_from]
  | fuel + 1, a => by
    have ih := make_request_from_all429 resp body j429 j5xx delay hresp fuel (a + 1)
    have hfun : ((fun m => delay * 2 ^ (a + m) + j429 (a + m)) ∘ Nat.succ) =
        (fun m => delay * 2 ^ (a + 1 + m) + j429 (a + 1 + m)) := by
      funext m
      have hm : a + Nat.succ m = a + 1 + m := by omega
      simp [Function.comp, hm]
    simp only [make_request_from, hresp a, ih]
    norm_num
    rw [List.range_succ_eq_map, List.map_cons, List.map_map, hfun]
    simp [List.replicate_succ]

/-- C4: when every attempt is answered with status 429 the executor makes
exactly `retries` attempts, the recorded backoff waits are
`delay * 2 ^ attempt + jitter`, each wait is at least the previous one
(for the configured `delay >= 1` — the source default is `delay = 1` —
and jitter drawn from `[0, 1]`), and the final result is the terminal
exhausted-retries failure (`None` after falling out of the loop). -/
theorem c4_exhausted_retry_budget (resp : Nat → HttpResponse) (body : Nat → String)
    (j429 j5xx : Nat → ℚ) (retries : Nat) (delay : ℚ)
    (hresp : ∀ a, resp a = HttpResponse.status 429 (body a)) :
    (make_request resp j429 j5xx retries delay).result = none ∧
    (make_request resp j429 j5xx retries delay).exhausted = true ∧
    (make_request resp j429 j5xx retries delay).attempts = retries ∧
    (make_request resp j429 j5xx retries delay).waits =
      (List.range retries).map (fun a => delay * 2 ^ a + j429 a) ∧
    (1 ≤ delay → (∀ a, 0 ≤ j429 a ∧ j429 a ≤ 1) →
      ∀ m, m + 1 < retries →
        (make_request resp j429 j5xx retries delay).waits.getD m 0 ≤
          (make_request resp j429 j5xx retries delay).waits.getD (m + 1) 0) := by
  have h := make_request_from_all429 resp body j429 j5xx delay hresp retries 0
  rw [make_request, h]
  refine ⟨rfl, rfl, rfl, by simp, ?_⟩
  intro hd hj m hm
  have hget : ∀ n, n < retries →
      ((List.range retries).map
        (fun a => delay * 2 ^ (0 + a) + j429 (0 + a))).getD n 0 =
        delay * 2 ^ n + j429 n := by
    intro n hn
    rw [List.getD_eq_getElem?_getD, List.getElem?_map, List.getElem?_range hn]
    simp
  rw [hget m (by omega), hget (m + 1) hm]
  have h2 := one_le_two_pow_rat m
  have hjm := hj m
  have hjm1 := hj (m + 1)
  have hdm : (1 : ℚ) ≤ delay * 2 ^ m := by nlinarith
  rw [pow_succ]
  nlinarith

theorem c4_witness :
    (make_request (fun _ => HttpResponse.status 429 "x") (fun _ => 1 / 2)
      (fun _ => 2) 3 1).attempts = 3 ∧
    (make_request (fun _ => HttpResponse.status 429 "x") (fun _ => 1 / 2)
      (fun _ => 2) 3 1).result = none ∧
    (make_request (fun _ => HttpResponse.status 429 "x") (fun _ => 1 / 2)
      (fun _ => 2) 3 1).waits.getD 0 0 ≤
      (make_request (fun _ => HttpResponse.status 429 "x") (fun _ => 1 / 2)
        (fun _ => 2) 3 1).waits.getD 1 0 := by
  have h := c4_exhausted_retry_budget (fun _ => HttpResponse.status 429 "x")
    (fun _ => "x") (fun _ => 1 / 2) (fun _ => 2) 3 1 (fun _ => rfl)
  exact ⟨h.2.2.1, h.1,
    h.2.2.2.2 (le_refl 1) (fun _ => ⟨by norm_num, by norm_num⟩) 0 (by omega)⟩

/-- C5: a 404 answer makes the executor return the non-retryable `None`
immediately — one single attempt, no backoff sleeps, not the exhaustion
path — and a poll that detects no transition leaves every previous
StockState in place and generates no StockChangeEvent and no messages. -/
theorem c5_not_found_immediate (resp : Nat → HttpResponse) (body : String)
    (j429 j5xx : Nat → ℚ) (retries : Nat) (delay : ℚ)
    (h404 : resp 0 = HttpResponse.status 404 body) (hr : 0 < retries) :
    make_request resp j429 j5xx retries delay =
      ⟨none, 1, [], ["Resource not found"], false⟩ ∧
    (∀ (db : TrackerDB) (doChange : Bool) (i : Nat) (q : ℚ)
        (channelOk : ChannelId → Bool),
      (check_stock_task db doChange i q channelOk).2.1 = none →
        (check_stock_task db doChange i q channelOk).1 = db ∧
        (check_stock_task db doChange i q channelOk).2.2 = []) := by
  constructor
  · cases retries with
    | zero => omega
    | succ n =>
      rw [make_request]
      simp [make_request_from, h404]
  · exact fun db doChange i q channelOk =>
      check_stock_task_none_eq db doChange i q channelOk

theorem c5_witness :
    make_request (fun _ => HttpResponse.status 404 "nf") (fun _ => 0)
      (fun _ => 0) 3 1 = ⟨none, 1, [], ["Resource not found"], false⟩ ∧
    (check_stock_task demoDB false 0 50 (fun _ => true)).2.2 = [] := by
  have h := c5_not_found_immediate (fun _ => HttpResponse.status 404 "nf") "nf"
    (fun _ => 0) (fun _ => 0) 3 1 rfl (by omega)
  exact ⟨h.1, (h.2 demoDB false 0 50 (fun _ => true) (by decide)).2⟩

/-! Helper lemmas for the tracking registry. -/

theorem add_to_tracking_lookup (tr : List (UserId × List ProductKey)) (u : UserId)
    (k : ProductKey) :
    lookupA (add_to_tracking tr u k).1 u =
      some (if k ∈ get_tracking_list tr u then get_tracking_list tr u
            else get_tracking_list tr u ++ [k]) := by
  unfold add_to_tracking get_tracking_list
  by_cases hu : u ∈ tr.map Prod.fst
  · simp only [hu, if_true]
    cases hl : lookupA tr u with
    | none =>
      have hs : (lookupA tr u).isSome = true := (lookupA_isSome_iff_mem tr u).mpr hu
      rw [hl] at hs
      cases hs
    | some tl =>
      simp only [hl, Option.getD_some]
      by_cases hk : k ∈ tl
      · simp [hk, hl]
      · simp only [hk, if_false]
        exact mem_keys_dictSet_self tr u (tl ++ [k])
  · simp only [hu, if_false]
    have hnone : lookupA tr u = none := lookupA_eq_none_of_not_mem hu
    have happ : lookupA (tr ++ [(u, [])]) u = some [] := by
      rw [lookupA_append_of_none _ hnone]
      simp [lookupA]
    simp only [happ, hnone, Option.getD_some, Option.getD_none,
      List.not_mem_nil, if_false]
    have := mem_keys_dictSet_self (tr ++ [(u, [])]) u ([] ++ [k])
    simpa using this

theorem add_to_tracking_noop {tr : List (UserId × List ProductKey)} {u : UserId}
    {k : ProductKey} {l : List ProductKey}
    (hl : lookupA tr u = some l) (hk : k ∈ l) :
    add_to_tracking tr u k = (tr, false) := by
  unfold add_to_tracking
  have hu : u ∈ tr.map Prod.fst := mem_of_lookupA_eq_some hl
  simp [hu, hl, hk]

theorem track_add_fst (db : TrackerDB) (u : UserId) (retailer product : String) :
    (track_add db u retailer product).1 =
      { db with user_tracking :=
          (add_to_tracking db.user_tracking u (retailer ++ ":" ++ product)).1 } := by
  unfold track_add
  dsimp only
  split <;> rfl

/-- C6: adding the same product to the same user's tracking list twice
leaves the list containing the product exactly once; the second call
changes nothing and returns `False`, which the `/track add` command turns
into the "already tracking" reply rather than an error. -/
theorem c6_track_twice_idempotent (db : TrackerDB) (u : UserId)
    (retailer product : String)
    (hnd : (get_tracking_list db.user_tracking u).Nodup) :
    ((get_tracking_list
        (add_to_tracking
          (add_to_tracking db.user_tracking u (retailer ++ ":" ++ product)).1
          u (retailer ++ ":" ++ product)).1 u).count (retailer ++ ":" ++ product)
      = 1) ∧
    (add_to_tracking
      (add_to_tracking db.user_tracking u (retailer ++ ":" ++ product)).1
      u (retailer ++ ":" ++ product)).2 = false ∧
    (add_to_tracking
      (add_to_tracking db.user_tracking u (retailer ++ ":" ++ product)).1
      u (retailer ++ ":" ++ product)).1 =
      (add_to_tracking db.user_tracking u (retailer ++ ":" ++ product)).1 ∧
    (track_add (track_add db u retailer product).1 u retailer product).2 =
      TrackAddReply.alreadyTracking := by
  have h1 := add_to_tracking_lookup db.user_tracking u (retailer ++ ":" ++ product)
  have hkL1 : (retailer ++ ":" ++ product) ∈
      (if (retailer ++ ":" ++ product) ∈ get_tracking_list db.user_tracking u
       then get_tracking_list db.user_tracking u
       else get_tracking_list db.user_tracking u ++ [retailer ++ ":" ++ product]) := by
    by_cases hk : (retailer ++ ":" ++ product) ∈ get_tracking_list db.user_tracking u
    · simp [hk]
    · simp [hk]
  have hnoop := add_to_tracking_noop h1 hkL1
  have hcount :
      (if (retailer ++ ":" ++ product) ∈ get_tracking_list db.user_tracking u
       then get_tracking_list db.user_tracking u
       else get_tracking_list db.user_tracking u ++
         [retailer ++ ":" ++ product]).count (retailer ++ ":" ++ product) = 1 := by
    by_cases hk : (retailer ++ ":" ++ product) ∈ get_tracking_list db.user_tracking u
    · simp only [hk, if_true]
      exact List.count_eq_one_of_mem hnd hk
    · simp only [hk, if_false, List.count_append]
      rw [List.count_eq_zero_of_not_mem hk]
      simp
  refine ⟨?_, ?_, ?_, ?_⟩
  · rw [hnoop]
    show (get_tracking_list
      (add_to_tracking db.user_tracking u (retailer ++ ":" ++ product)).1 u).count
        (retailer ++ ":" ++ product) = 1
    unfold get_tracking_list
    rw [h1, Option.getD_some]
    exact hcount
  · rw [hnoop]
  · rw [hnoop]
  · rw [track_add_fst db u retailer product]
    unfold track_add
    dsimp only
    rw [hnoop]
    simp

theorem c6_witness :
    ((get_tracking_list
        (add_to_tracking (add_to_tracking [] 1 "Walmart:X").1 1 "Walmart:X").1
        1).count "Walmart:X" = 1) ∧
    (track_add (track_add demoDB 2 "Walmart" "X").1 2 "Walmart" "X").2 =
      TrackAddReply.alreadyTracking := by
  constructor
  · have h := c6_track_twice_idempotent
      { user_tracking := [], user_buylists := [], user_channels := [],
        stock_status := [] } 1 "Walmart" "X" (by decide)
    exact h.1
  · exact (c6_track_twice_idempotent demoDB 2 "Walmart" "X" (by decide)).2.2.2

/-- Every failing request leaves at least one log line (404 warning,
retry warnings, non-retryable status error, or the exhaustion error). -/
theorem make_request_from_logs (resp : Nat → HttpResponse) (j429 j5xx : Nat → ℚ)
    (delay : ℚ) :
    ∀ fuel a, (make_request_from resp j429 j5xx delay fuel a).result = none →
      (make_request_from resp j429 j5xx delay fuel a).logs ≠ []
  | 0, a => by simp [make_request_from]
  | fuel + 1, a => by
    simp only [make_request_from]
    cases hr : resp a with
    | status code body =>
      dsimp only
      split_ifs <;> simp
    | clientError => simp
    | timeoutError => simp
    | otherError => simp

/-- C7: a poll of a product the store knows nothing about surfaces the
default out-of-stock answer without inventing state; every failing fetch
is logged; a tick that detects no transition retains every previous
StockState and emits nothing; and a tick that does detect one touches no
other product's state. -/
theorem c7_poll_failure_isolated :
    (∀ (db : List (ProductKey × StockState)) (p : ProductKey),
      p ∉ db.map Prod.fst → check_stock db p = ⟨false, none, none⟩) ∧
    (∀ (resp : Nat → HttpResponse) (j429 j5xx : Nat → ℚ) (retries : Nat)
        (delay : ℚ),
      (make_request resp j429 j5xx retries delay).result = none →
      (make_request resp j429 j5xx retries delay).logs ≠ []) ∧
    (∀ (db : TrackerDB) (doChange : Bool) (i : Nat) (q : ℚ)
        (channelOk : ChannelId → Bool),
      ((check_stock_task db doChange i q channelOk).2.1 = none →
        (check_stock_task db doChange i q channelOk).1 = db ∧
        (check_stock_task db doChange i q channelOk).2.2 = []) ∧
      (∀ ev, (check_stock_task db doChange i q channelOk).2.1 = some ev →
        ∀ p, p ≠ ev.product →
          lookupA (check_stock_task db doChange i q channelOk).1.stock_status p =
            lookupA db.stock_status p)) := by
  refine ⟨?_, ?_, ?_⟩
  · intro db p hp
    unfold check_stock
    rw [lookupA_eq_none_of_not_mem hp]
    rfl
  · intro resp j429 j5xx retries delay
    exact make_request_from_logs resp j429 j5xx delay retries 0
  · intro db doChange i q channelOk
    refine ⟨check_stock_task_none_eq db doChange i q channelOk, ?_⟩
    intro ev hev p hp
    obtain ⟨_, _, hdb, _⟩ :=
      check_stock_task_some_eq db doChange i q channelOk ev hev
    rw [hdb]
    exact lookupA_setA_ne db.stock_status ev.product p ev.current hp

theorem c7_witness :
    check_stock [] "nope" = ⟨false, none, none⟩ ∧
    (make_request (fun _ => HttpResponse.status 404 "x") (fun _ => 0) (fun _ => 0)
      3 1).logs ≠ [] ∧
    lookupA (check_stock_task demoDB true 0 50 (fun _ => true)).1.stock_status
      "other" = lookupA demoDB.stock_status "other" := by
  refine ⟨c7_poll_failure_isolated.1 [] "nope" (by simp), ?_, ?_⟩
  · exact c7_poll_failure_isolated.2.1 (fun _ => HttpResponse.status 404 "x")
      (fun _ => 0) (fun _ => 0) 3 1 (by decide)
  · exact (c7_poll_failure_isolated.2.2 demoDB true 0 50 (fun _ => true)).2
      ⟨"Walmart:X", ⟨false, none, some "url"⟩, ⟨true, some 50, some "url"⟩⟩
      (by decide) "other" (by decide)

/-- One dequeued message causes at most one send attempt. -/
theorem process_notification_le_one (inp : DeliveryInput) :
    (process_notification inp).1 ≤ 1 := by
  rcases inp with ⟨uid, msg, found, outcome⟩
  cases found <;> cases outcome <;> simp [process_notification]

/-- C8: the dispatcher makes at most one delivery attempt per queued
message and then drops it: a recipient-not-found message is dropped with
a logged warning and zero send attempts, any failed send is dropped after
exactly one attempt with a logged error, and the loop always processes
every queued message (one `task_done` per message, never a retry). -/
theorem c8_dispatcher_drops_after_one_attempt (queue : List DeliveryInput) :
    (process_notifications queue).1 = queue.length ∧
    (process_notifications queue).2.1 ≤ queue.length ∧
    (∀ inp : DeliveryInput,
      (process_notification inp).1 ≤ 1 ∧
      (inp.userFound = false →
        process_notification inp =
          (0, ["User not found, cannot send notification"])) ∧
      (inp.userFound = true → inp.outcome ≠ SendOutcome.delivered →
        (process_notification inp).1 = 1 ∧ (process_notification inp).2 ≠ [])) := by
  refine ⟨?_, ?_, ?_⟩
  · induction queue with
    | nil => rfl
    | cons inp rest ih => simp [process_notifications, ih]
  · induction queue with
    | nil => simp [process_notifications]
    | cons inp rest ih =>
      have h1 := process_notification_le_one inp
      simp only [process_notifications, List.length_cons]
      omega
  · intro inp
    rcases inp with ⟨uid, msg, found, outcome⟩
    refine ⟨process_notification_le_one _, ?_, ?_⟩ <;>
      cases found <;> cases outcome <;> simp [process_notification]

theorem c8_witness :
    (process_notifications
      [⟨1, "m", true, SendOutcome.forbidden⟩,
       ⟨2, "n", false, SendOutcome.delivered⟩]).1 = 2 ∧
    (process_notification ⟨1, "m", true, SendOutcome.forbidden⟩).1 = 1 ∧
    process_notification ⟨2, "n", false, SendOutcome.delivered⟩ =
      (0, ["User not found, cannot send notification"]) := by
  have h := c8_dispatcher_drops_after_one_attempt
    [⟨1, "m", true, SendOutcome.forbidden⟩, ⟨2, "n", false, SendOutcome.delivered⟩]
  refine ⟨h.1, ?_, ?_⟩
  · exact ((h.2.2 ⟨1, "m", true, SendOutcome.forbidden⟩).2.2 rfl (by decide)).1
  · exact (h.2.2 ⟨2, "n", false, SendOutcome.delivered⟩).2.1 rfl

/-! Helper lemmas for the price cleaning pipeline. -/

theorem mem_removeAll {c x : Char} {l : List Char}
    (h : x ∈ removeAll c l) : x ∈ l ∧ x ≠ c := by
  unfold removeAll at h
  have hm := List.mem_filter.mp h
  exact ⟨hm.1, by simpa using hm.2⟩

theorem mem_strip {l : List Char} {c : Char} (h : c ∈ strip l) : c ∈ l := by
  unfold strip at h
  rw [List.mem_reverse] at h
  have h2 := List.Sublist.mem h (List.dropWhile_sublist Char.isWhitespace)
  rw [List.mem_reverse] at h2
  exact List.Sublist.mem h2 (List.dropWhile_sublist Char.isWhitespace)

theorem head?_dropWhile_not (p : Char → Bool) :
    ∀ (l : List Char) {c : Char}, (l.dropWhile p).head? = some c → p c = false
  | [], c => by simp
  | x :: rest, c => by
    rw [List.dropWhile_cons]
    by_cases hx : p x = true
    · rw [if_pos hx]
      exact head?_dropWhile_not p rest
    · rw [if_neg hx]
      intro h
      simp only [List.head?_cons, Option.some.injEq] at h
      subst h
      cases hpx : p x with
      | false => rfl
      | true => exact absurd hpx hx

theorem getLast?_dropWhile_of_some {p : Char → Bool} {l : List Char} {c : Char}
    (h : (l.dropWhile p).getLast? = some c) : l.getLast? = some c := by
  obtain ⟨t, ht⟩ := List.dropWhile_suffix (l := l) p
  rw [← ht, List.getLast?_append, h]
  rfl

theorem clean_text_head_not_ws {s : List Char} {c : Char}
    (h : (clean_text s).head? = some c) : c.isWhitespace = false := by
  unfold clean_text strip at h
  rw [List.head?_reverse] at h
  have h2 := getLast?_dropWhile_of_some h
  rw [List.getLast?_reverse] at h2
  exact head?_dropWhile_not Char.isWhitespace _ h2

theorem clean_text_last_not_ws {s : List Char} {c : Char}
    (h : (clean_text s).getLast? = some c) : c.isWhitespace = false := by
  unfold clean_text strip at h
  rw [List.getLast?_reverse] at h
  exact head?_dropWhile_not Char.isWhitespace _ h

/-- C9: `extract_price` is total by construction: given `None` it returns
`None`; given a string it hands the cleaned text — all occurrences of
the dollar, euro and pound signs and of commas removed, surrounding
whitespace stripped — to the float parser, whose failure (`ValueError`)
is the `None` result rather than an exception. -/
theorem c9_extract_price_total (parsePrice : List Char → Option ℚ) :
    extract_price parsePrice none = none ∧
    (∀ s, extract_price parsePrice (some s) = parsePrice (clean_text s)) ∧
    (∀ s c, c ∈ clean_text s → c ≠ '$' ∧ c ≠ '€' ∧ c ≠ '£' ∧ c ≠ ',') ∧
    (∀ s c, (clean_text s).head? = some c → c.isWhitespace = false) ∧
    (∀ s c, (clean_text s).getLast? = some c → c.isWhitespace = false) := by
  refine ⟨rfl, fun s => rfl, ?_, ?_, ?_⟩
  · intro s c h
    have h1 := mem_strip h
    have h2 := mem_removeAll h1
    have h3 := mem_removeAll h2.1
    have h4 := mem_removeAll h3.1
    have h5 := mem_removeAll h4.1
    exact ⟨h5.2, h4.2, h3.2, h2.2⟩
  · intro s c h
    exact clean_text_head_not_ws h
  · intro s c h
    exact clean_text_last_not_ws h

theorem c9_witness :
    extract_price (fun _ => none) none = none ∧
    ('1' : Char) ≠ '$' ∧
    Char.isWhitespace '1' = false := by
  have h := c9_extract_price_total (fun _ => none)
  exact ⟨h.1, (h.2.2.1 ['$', ' ', '1', ',', '5'] '1' (by decide)).1,
    h.2.2.2.1 ['$', ' ', '1', ',', '5'] '1' (by decide)⟩

/-- The invariant of the simulated stock store: an out-of-stock entry has
no price. -/
def stock_price_invariant (db : List (ProductKey × StockState)) : Prop :=
  ∀ e ∈ db, e.2.in_stock = false → e.2.price = none

theorem stock_price_invariant_setA :
    ∀ (db : List (ProductKey × StockState)) (k : ProductKey) (st : StockState),
      stock_price_invariant db → (st.in_stock = false → st.price = none) →
      stock_price_invariant (setA db k st)
  | [], k, st, _, _ => by intro e he; simp [setA] at he
  | e :: rest, k, st, hdb, hst => by
    have hrest : stock_price_invariant rest :=
      fun g hg => hdb g (List.mem_cons_of_mem e hg)
    have ih := stock_price_invariant_setA rest k st hrest hst
    intro f hf
    simp only [setA] at hf
    by_cases he : e.1 = k
    · rw [if_pos he] at hf
      rcases List.mem_cons.mp hf with hf | hf
      · subst hf; exact hst
      · exact ih f hf
    · rw [if_neg he] at hf
      rcases List.mem_cons.mp hf with hf | hf
      · subst hf; exact hdb f (List.mem_cons_self f rest)
      · exact ih f hf

/-- C10: every entry of the simulated stock store has `price = None`
whenever `in_stock` is false — this holds for the sample data built at
initialization (the random price is only stored when the stock draw came
up true) and is preserved by every simulated stock change; the change
flips `in_stock`, keeps the entry's url, and stores exactly the new
state under the chosen key. -/
theorem c10_price_none_when_out_of_stock :
    (∀ (catalog : List (String × List String)) (randStock : ProductKey → Bool)
        (randPrice : ProductKey → ℚ),
      stock_price_invariant (init_sample_stock catalog randStock randPrice)) ∧
    (∀ (db : List (ProductKey × StockState)) (i : Nat) (q : ℚ),
      stock_price_invariant db →
      stock_price_invariant (simulate_stock_change db i q).1) ∧
    (∀ (db : List (ProductKey × StockState)) (i : Nat) (q : ℚ)
        (k : ProductKey) (old st : StockState),
      (simulate_stock_change db i q).2 = some (k, old, st) →
      st.url = old.url ∧ st.in_stock = !old.in_stock ∧
        lookupA (simulate_stock_change db i q).1 k = some st) := by
  refine ⟨?_, ?_, ?_⟩
  · intro catalog randStock randPrice
    induction catalog with
    | nil => intro e he; simp [init_sample_stock] at he
    | cons rp rest ih =>
      obtain ⟨retailer, products⟩ := rp
      intro e he
      simp only [init_sample_stock] at he
      rcases List.mem_append.mp he with he | he
      · obtain ⟨product, hprod, hep⟩ := List.mem_map.mp he
        intro hfalse
        rw [← hep] at hfalse ⊢
        dsimp only at hfalse ⊢
        rw [hfalse]
        rfl
      · exact ih e he
  · intro db i q hdb
    rcases simulate_stock_change_cases db i q with hc | ⟨k, old, hl, hc⟩
    · rw [hc]
      exact hdb
    · rw [hc]
      refine stock_price_invariant_setA db k _ hdb ?_
      intro hfalse
      dsimp only at hfalse ⊢
      rw [hfalse]
      rfl
  · intro db i q k old st hev
    rcases simulate_stock_change_cases db i q with hc | ⟨k', old', hl, hc⟩
    · rw [hc] at hev
      cases hev
    · rw [hc] at hev
      simp only [Option.some.injEq, Prod.mk.injEq] at hev
      obtain ⟨hk, hold, hst⟩ := hev
      subst hk
      subst hold
      subst hst
      refine ⟨rfl, rfl, ?_⟩
      rw [hc]
      exact lookupA_setA_self _ (mem_of_lookupA_eq_some hl)

theorem c10_witness :
    stock_price_invariant (init_sample_stock [("Walmart", ["X"])]
      (fun _ => false) (fun _ => 30)) ∧
    stock_price_invariant
      (simulate_stock_change [("Walmart:X", ⟨true, some 30, some "u"⟩)] 0 40).1 ∧
    lookupA (simulate_stock_change
      [("Walmart:X", ⟨true, some 30, some "u"⟩)] 0 40).1 "Walmart:X" =
      some ⟨false, none, some "u"⟩ := by
  have h := c10_price_none_when_out_of_stock
  refine ⟨h.1 [("Walmart", ["X"])] (fun _ => false) (fun _ => 30),
    h.2.1 [("Walmart:X", ⟨true, some 30, some "u"⟩)] 0 40 ?_, ?_⟩
  · intro e he hf
    simp only [List.mem_singleton] at he
    subst he
    cases hf
  · obtain ⟨_, _, hlk⟩ := h.2.2 [("Walmart:X", ⟨true, some 30, some "u"⟩)] 0 40
      "Walmart:X" ⟨true, some 30, some "u"⟩ ⟨false, none, some "u"⟩ (by decide)
    exact hlk
